import Mathlib

/-!
Verification development for the minitorch Module-2 scalar autodiff engine
(`minitorch/scalar.py`).  Scalar float values are modelled as rationals `ℚ`;
all claim-relevant primitive operations (add, mul, inv, neg, lt, eq) are
exact on the rational inputs the claims use.  The modules `autodiff.py` and
`operators.py` are imported by `scalar.py` but are not part of the given
source tree, so the definitions they provide (the `operators` kernels, the
`Variable` / `History` / `Context` data model, `FunctionBase.apply` and the
backward-propagation engine) are modelled from the specification, as marked
in the doc comments below.
-/

namespace Minitorch

/-- The numeric value type wrapped by a `Scalar` (`data : float` in the
source); modelled exactly as `ℚ`. -/
abbrev Val := ℚ

namespace operators

/-- Modelled from the spec: `operators.py` is not under `src/`; §4.1 gives
`mul(a,b)=a*b`. -/
def mul (a b : Val) : Val := a * b

/-- Modelled from the spec: `operators.py` is not under `src/`; §4.1 gives
`inv(a)=1/a`. -/
def inv (a : Val) : Val := 1 / a

/-- Modelled from the spec: `operators.py` is not under `src/`; §4.1 gives
negation as a primitive op (`neg`). -/
def neg (a : Val) : Val := -a

/-- Modelled from the spec: `operators.py` is not under `src/`; `LT.forward`
calls `operators.lt`, "1.0 if x is less than y else 0.0". -/
def lt (a b : Val) : Val := if a < b then 1 else 0

/-- Modelled from the spec: `operators.py` is not under `src/`; `EQ.forward`
calls `operators.eq`, "1.0 if x is equal to y else 0.0". -/
def eq (a b : Val) : Val := if a = b then 1 else 0

/-- Modelled from the spec: `operators.py` is not under `src/`; §4.1 gives
`mul_back(a,b,d)=(b*d, a*d)`. -/
def mul_back (a b d : Val) : Val × Val := (b * d, a * d)

/-- Modelled from the spec: `operators.py` is not under `src/`; §4.1 gives
`inv_back(a,d) = -d/a²`. -/
def inv_back (a d : Val) : Val := -d / (a * a)

/-- Modelled from the spec: `operators.py` is not under `src/`; negation's
backward is `-d` (derivative of `-x` is `-1`). -/
def neg_back (d : Val) : Val := -d

end operators

/-- Modelled from the spec: `Context` lives in the missing `autodiff.py`.
§3: a per-call side channel with a `no_grad` flag and write-once
`saved_values`. -/
structure Context where
  no_grad : Bool
  saved_values : List Val
deriving DecidableEq

/-- A fresh context as created by `apply` (§4.2 step 3). -/
def Context.fresh (ng : Bool) : Context := ⟨ng, []⟩

/-- The primitive operation tags appearing in the claims; each corresponds to
one `ScalarFunction` subclass in `scalar.py`. -/
inductive Op where
  | Add
  | Mul
  | Inv
  | Neg
  | LT
  | EQ
deriving DecidableEq

/-- The per-op `forward` bodies of `scalar.py` (`Add.forward`, `Mul.forward`,
`Inv.forward`, `Neg.forward`, `LT.forward`, `EQ.forward`), including each
op's `ctx.save_for_backward` calls; a call with the wrong number of
arguments is a fatal arity error, modelled as `none`. -/
def Op.forward : Op → Context → List Val → Option (Val × Context)
  | .Add, ctx, [a, b] => some (a + b, ctx)
  | .Mul, ctx, [a, b] =>
      some (operators.mul a b, { ctx with saved_values := [a, b] })
  | .Inv, ctx, [a] =>
      some (operators.inv a, { ctx with saved_values := [a] })
  | .Neg, ctx, [a] => some (operators.neg a, ctx)
  | .LT, ctx, [a, b] => some (operators.lt a b, ctx)
  | .EQ, ctx, [a, b] => some (operators.eq a b, ctx)
  | _, _, _ => none

/-- The per-op `backward` bodies of `scalar.py`, reading `ctx.saved_values`
where the source does; the returned list holds one gradient per input slot. -/
def Op.backward : Op → Context → Val → List Val
  | .Add, _, d_output => [d_output, d_output]
  | .Mul, ctx, d_output =>
      match ctx.saved_values with
      | [a, b] => [(operators.mul_back a b d_output).1,
                   (operators.mul_back a b d_output).2]
      | _ => []
  | .Inv, ctx, d_output =>
      match ctx.saved_values with
      | [a] => [operators.inv_back a d_output]
      | _ => []
  | .Neg, _, d_output => [operators.neg_back d_output]
  | .LT, _, _ => [0.0, 0.0]
  | .EQ, _, _ => [0.0, 0.0]

mutual
/-- Modelled from the spec: the `Variable` base class lives in the missing
`autodiff.py`.  §3: a tracked value owns `data`, an optional `History`
(`leaf` = no history, per the spec's reading of the `back=History()`
default as "no history"), a `requires_grad` flag and a creation-order
`unique_id`. -/
inductive Scalar where
  | leaf (unique_id : Nat) (data : Val) (requires_grad : Bool)
  | node (unique_id : Nat) (data : Val) (requires_grad : Bool)
         (op : Op) (ctx : Context) (inputs : ArgList)

/-- Modelled from the spec: §3 History holds the ordered input sequence
"precisely as passed, including raw-number operands". -/
inductive ArgList where
  | nil
  | consRaw (v : Val) (rest : ArgList)
  | consVar (s : Scalar) (rest : ArgList)
end

/-- The wrapped float value (`Scalar.data` / `get_data`). -/
def Scalar.data : Scalar → Val
  | .leaf _ d _ => d
  | .node _ d _ _ _ _ => d

/-- The creation-order identity (`unique_id`, §3). -/
def Scalar.unique_id : Scalar → Nat
  | .leaf u _ _ => u
  | .node u _ _ _ _ _ => u

/-- The gradient-tracking flag (`requires_grad`, §3). -/
def Scalar.requires_grad : Scalar → Bool
  | .leaf _ _ rg => rg
  | .node _ _ rg _ _ _ => rg

/-- The optional history link: `none` for a leaf, the producing op with its
context and original inputs for an interior node (§3 History). -/
def Scalar.history : Scalar → Option (Op × Context × ArgList)
  | .leaf _ _ _ => none
  | .node _ _ _ op ctx inputs => some (op, ctx, inputs)

/-- Source `Scalar.__init__` with no explicit history argument: a leaf with no
history; gradient tracking is off until `requires_grad_` is called. -/
def Scalar.ofFloat (uid : Nat) (v : Val) : Scalar := .leaf uid v false

/-- Modelled from the spec: `requires_grad_` lives in the missing
`autodiff.py`; §6 says it toggles the gradient-tracking flag. -/
def Scalar.requires_grad_ : Scalar → Bool → Scalar
  | .leaf u d _, rg => .leaf u d rg
  | .node u d _ op ctx inputs, rg => .node u d rg op ctx inputs

/-- The raw numeric value of one `apply` argument (§4.2 step 2: `data` for
Variables, identity for raw numbers). -/
def ArgList.rawVals : ArgList → List Val
  | .nil => []
  | .consRaw v rest => v :: rest.rawVals
  | .consVar s rest => s.data :: rest.rawVals

/-- Spec §4.2 step 1: whether any tracked argument requests gradients. -/
def ArgList.needsGrad : ArgList → Bool
  | .nil => false
  | .consRaw _ rest => rest.needsGrad
  | .consVar s rest => s.requires_grad || rest.needsGrad

/-- Modelled from the spec: `FunctionBase.apply` lives in the missing
`autodiff.py`.  §4.2: compute `needs_grad`, unwrap the args, run `forward`
on a fresh context, and wrap the result with a history node exactly when
`needs_grad` (otherwise a detached leaf); `uid` is the fresh `unique_id`
for the produced Variable.  Arity mismatch is fatal (`none`). -/
def apply (op : Op) (args : ArgList) (uid : Nat) : Option Scalar :=
  match op.forward (Context.fresh (!args.needsGrad)) args.rawVals with
  | none => none
  | some (v, ctx) =>
      if args.needsGrad then some (.node uid v true op ctx args)
      else some (.leaf uid v false)

/-- The accumulated-gradient map of the backward engine, keyed by
`unique_id` (§4.3 step 2). -/
abbrev GradMap := List (Nat × Val)

/-- Add a gradient contribution into the running total for one identity,
creating the entry if absent (§4.3 step 3). -/
def addGrad : GradMap → Nat → Val → GradMap
  | [], u, d => [(u, d)]
  | (u₀, d₀) :: rest, u, d =>
      if u₀ = u then (u₀, d₀ + d) :: rest else (u₀, d₀) :: addGrad rest u d

/-- Look up the accumulated derivative for one identity; `none` when the
backward pass never reached it (§3: `derivative` is optional). -/
def derivativeOf : GradMap → Nat → Option Val
  | [], _ => none
  | (u₀, d₀) :: rest, u => if u₀ = u then some d₀ else derivativeOf rest u

mutual
/-- Modelled from the spec: the backward propagation engine lives in the
missing `autodiff.py`.  §4.3: route the incoming gradient through each
node's `backward`, and accumulate into the map only at leaves that request
gradients; raw-number slots are discarded.  Contributions to a shared
ancestor are summed, so this structural traversal computes the same
accumulated leaf derivatives as the reverse-topological visit. -/
def propagate : Scalar → Val → GradMap → GradMap
  | .leaf u _ rg, d, m => if rg then addGrad m u d else m
  | .node _ _ _ op ctx inputs, d, m =>
      propagateList inputs (op.backward ctx d) m

/-- Route one returned gradient per original input slot (§4.3 step 3):
Variable slots recurse, raw-number slots are discarded. -/
def propagateList : ArgList → List Val → GradMap → GradMap
  | .nil, _, m => m
  | .consRaw _ rest, grads, m => propagateList rest grads.tail m
  | .consVar s rest, grads, m =>
      match grads with
      | [] => m
      | g :: gs => propagateList rest gs (propagate s g m)
end

/-- Modelled from the spec: `Variable.backward` lives in the missing
`autodiff.py`.  §4.3: run the engine from `root` with the given seed
gradient, returning the accumulated per-leaf derivatives. -/
def Scalar.backward (root : Scalar) (seed : Val) : GradMap :=
  propagate root seed []

/-- Source `Scalar.__mul__`: `Mul.apply(self, b)`. -/
def Scalar.mul (a b : Scalar) (uid : Nat) : Option Scalar :=
  apply .Mul (.consVar a (.consVar b .nil)) uid

/-- Source `Scalar.__add__`: `Add.apply(self, b)`. -/
def Scalar.add (a b : Scalar) (uid : Nat) : Option Scalar :=
  apply .Add (.consVar a (.consVar b .nil)) uid

/-- Source `Scalar.__truediv__`: `Mul.apply(self, Inv.apply(b))`; `uid₁` is the
fresh identity of the intermediate `Inv` value, `uid₂` of the result. -/
def Scalar.div (a b : Scalar) (uid₁ uid₂ : Nat) : Option Scalar := do
  let ib ← apply .Inv (.consVar b .nil) uid₁
  apply .Mul (.consVar a (.consVar ib .nil)) uid₂

/-- Source `Scalar.__rtruediv__` (raw-number numerator `b`):
`Mul.apply(b, Inv.apply(self))`. -/
def Scalar.rdiv (a : Scalar) (b : Val) (uid₁ uid₂ : Nat) : Option Scalar := do
  let ia ← apply .Inv (.consVar a .nil) uid₁
  apply .Mul (.consRaw b (.consVar ia .nil)) uid₂

/-- Source `Scalar.__sub__`: `Add.apply(self, Neg.apply(b))`. -/
def Scalar.sub (a b : Scalar) (uid₁ uid₂ : Nat) : Option Scalar := do
  let nb ← apply .Neg (.consVar b .nil) uid₁
  apply .Add (.consVar a (.consVar nb .nil)) uid₂

/-- Source `Scalar.__lt__`: `LT.apply(self, b)`. -/
def Scalar.lt (a b : Scalar) (uid : Nat) : Option Scalar :=
  apply .LT (.consVar a (.consVar b .nil)) uid

/-- Source `Scalar.__gt__`: `LT.apply(b, self)` — the arguments swapped, with no
separate greater-than op. -/
def Scalar.gt (a b : Scalar) (uid : Nat) : Option Scalar :=
  apply .LT (.consVar b (.consVar a .nil)) uid

/-- Source `Scalar.__eq__`: `EQ.apply(self, b)` — the differentiable equality op,
producing a Scalar, not a structural comparison. -/
def Scalar.eqOp (a b : Scalar) (uid : Nat) : Option Scalar :=
  apply .EQ (.consVar a (.consVar b .nil)) uid

/-- Source `Scalar.__bool__`: `bool(self.data)` — float truthiness, true exactly
when the wrapped value is nonzero. -/
def Scalar.toBool (s : Scalar) : Bool := s.data ≠ 0

/-- Source `central_difference` (scalar.py lines 25–28), at the float instantiation:
build the two perturbed argument lists by mapping over the enumerated
values, perturbing position `arg` by `∓ε` / `±ε`, and return
`(f(plus) - f(minus)) / (2ε)`. -/
def central_difference (f : List Val → Val) (vals : List Val) (arg : Nat)
    (epsilon : Val) : Val :=
  let minus_epsilon_vals :=
    vals.enum.map fun iv => if iv.1 = arg then iv.2 - epsilon else iv.2
  let plus_epsilon_vals :=
    vals.enum.map fun iv => if iv.1 = arg then iv.2 + epsilon else iv.2
  (f plus_epsilon_vals - f minus_epsilon_vals) / (2 * epsilon)

/-! `derivative_check` calls `central_difference` on the `Scalar` inputs
themselves, so the perturbations and the final subtraction/division run
through the tracked `Scalar` operators.  Each operator application consumes
a fresh `unique_id`, modelled by threading a counter in `StateT Nat Option`
(the `Option` layer carries `apply`'s fatal arity error). -/

/-- Source `FunctionBase.apply` consuming the next fresh `unique_id` from the
threaded counter (§9: global `unique_id` counter). -/
def applyM (op : Op) (args : ArgList) : StateT Nat Option Scalar :=
  fun uid =>
    match apply op args uid with
    | none => none
    | some s => some (s, uid + 1)

/-- Source `Scalar.__add__` with a raw float right operand: `Add.apply(self, b)`. -/
def Scalar.addRawM (x : Scalar) (v : Val) : StateT Nat Option Scalar :=
  applyM .Add (.consVar x (.consRaw v .nil))

/-- Source `Scalar.__sub__` with a raw float right operand:
`Add.apply(self, Neg.apply(b))`. -/
def Scalar.subRawM (x : Scalar) (v : Val) : StateT Nat Option Scalar := do
  let nv ← applyM .Neg (.consRaw v .nil)
  applyM .Add (.consVar x (.consVar nv .nil))

/-- Source `Scalar.__sub__` on two Scalars: `Add.apply(self, Neg.apply(b))`. -/
def Scalar.subM (x y : Scalar) : StateT Nat Option Scalar := do
  let ny ← applyM .Neg (.consVar y .nil)
  applyM .Add (.consVar x (.consVar ny .nil))

/-- Source `Scalar.__truediv__` with a raw float right operand:
`Mul.apply(self, Inv.apply(b))`. -/
def Scalar.divRawM (x : Scalar) (v : Val) : StateT Nat Option Scalar := do
  let iv ← applyM .Inv (.consRaw v .nil)
  applyM .Mul (.consVar x (.consVar iv .nil))

/-- Source `central_difference` (scalar.py lines 25–28) at the `Scalar`
instantiation used by `derivative_check`: the unperturbed positions pass
the original Scalar through unchanged, position `arg` is perturbed by the
tracked `± epsilon` operators, and the quotient is the tracked
`(f(plus) - f(minus)) / (2ε)`. -/
def central_difference_scalars (f : List Scalar → StateT Nat Option Scalar)
    (vals : List Scalar) (arg : Nat) (epsilon : Val) :
    StateT Nat Option Scalar := do
  let minus_epsilon_vals ← vals.enum.mapM fun iv =>
    if iv.1 = arg then iv.2.subRawM epsilon else pure iv.2
  let plus_epsilon_vals ← vals.enum.mapM fun iv =>
    if iv.1 = arg then iv.2.addRawM epsilon else pure iv.2
  let fp ← f plus_epsilon_vals
  let fm ← f minus_epsilon_vals
  let diff ← fp.subM fm
  diff.divRawM (2 * epsilon)

/-- Modelled from the spec: `np.testing.assert_allclose` is an external
numpy collaborator; §6 gives its tolerance contract, success exactly when
`|actual - desired| ≤ atol + rtol·|desired|` with `rtol = atol = 1e-2`. -/
def isClose (actual desired : Val) : Bool :=
  decide (|actual - desired| ≤ 1 / 100 + 1 / 100 * |desired|)

/-- The per-input check loop of `derivative_check` (scalar.py lines
302–312): for each `(i, x)` compute the central-difference estimate for
argument `i`, read `x.derivative` (a missing derivative is a fatal lookup
error), and compare with `isClose`; the first failing comparison raises
(returns `false`) without running the remaining checks, and the loop
returns normally (`true`) when every comparison passes. -/
def run_checks (f : List Scalar → StateT Nat Option Scalar)
    (scalars : List Scalar) (grads : GradMap) :
    List (Nat × Scalar) → StateT Nat Option Bool
  | [] => pure true
  | ix :: rest => do
      let check ← central_difference_scalars f scalars ix.1 (1 / 1000000)
      match derivativeOf grads ix.2.unique_id with
      | none => failure
      | some d =>
          if isClose d check.data then run_checks f scalars grads rest
          else pure false

/-- The first loop of `derivative_check` (scalar.py lines 293–294):
`x.requires_grad_(True)` on every input scalar. -/
def tracked_inputs (scalars : List Scalar) : List Scalar :=
  scalars.map fun x => x.requires_grad_ true

/-- Source `derivative_check` (scalar.py lines 284–312): set `requires_grad` on
every input, evaluate `out = f(*scalars)`, run `out.backward()` (seed 1.0),
then run the per-input tolerance checks; `backward` itself is modelled
from the spec as noted at `Scalar.backward`. -/
def derivative_check (f : List Scalar → StateT Nat Option Scalar)
    (scalars : List Scalar) : StateT Nat Option Bool := do
  let out ← f (tracked_inputs scalars)
  run_checks f (tracked_inputs scalars) (out.backward 1)
    (tracked_inputs scalars).enum

/-- One input's tolerance check as `run_checks` performs it: from some
counter state, the central-difference estimate for argument `ix.1` is
produced, the accumulated derivative of input `ix.2` is present, and the
`isClose` comparison of the two yields `r`. -/
def checkedAt (f : List Scalar → StateT Nat Option Scalar)
    (scalars : List Scalar) (grads : GradMap) (ix : Nat × Scalar)
    (r : Bool) : Prop :=
  ∃ sIn sMid est d,
    central_difference_scalars f scalars ix.1 (1 / 1000000) sIn
        = some (est, sMid) ∧
    derivativeOf grads ix.2.unique_id = some d ∧
    isClose d est.data = r

/-- The leaf `a = Scalar(2.0)` of the end-to-end example, with
`requires_grad` set. -/
def c1_a : Scalar := .leaf 0 2 true

/-- The leaf `b = Scalar(3.0)` of the end-to-end example, with
`requires_grad` set. -/
def c1_b : Scalar := .leaf 1 3 true

/-- The value `c = a * b + a` of the end-to-end example (fresh ids 2 and 3 for the
two produced interior values). -/
def c1_c : Option Scalar :=
  (Scalar.mul c1_a c1_b 2).bind fun ab => Scalar.add ab c1_a 3

/-- The concrete function `f(x) = x * x` used to exercise
`derivative_check` on one input. -/
def c8f : List Scalar → StateT Nat Option Scalar := fun l =>
  match l with
  | [x] => applyM .Mul (.consVar x (.consVar x .nil))
  | _ => failure

/-- The concrete input list `[Scalar(2.0)]` for the `derivative_check`
exercise. -/
def c8scalars : List Scalar := [.leaf 0 2 false]

end Minitorch

namespace Minitorch

/-! ### Helper lemmas -/

theorem data_leaf (u : Nat) (d : Val) (rg : Bool) : (Scalar.leaf u d rg).data = d := rfl

theorem data_node (u : Nat) (d : Val) (rg : Bool) (op : Op) (ctx : Context) (ins : ArgList) :
    (Scalar.node u d rg op ctx ins).data = d := rfl

theorem requires_grad_leaf (u : Nat) (d : Val) (rg : Bool) :
    (Scalar.leaf u d rg).requires_grad = rg := rfl

theorem requires_grad_node (u : Nat) (d : Val) (rg : Bool) (op : Op) (ctx : Context)
    (ins : ArgList) : (Scalar.node u d rg op ctx ins).requires_grad = rg := rfl

theorem apply_data (op : Op) (args : ArgList) (uid : Nat) :
    (apply op args uid).map Scalar.data =
      (op.forward (Context.fresh (!args.needsGrad)) args.rawVals).map Prod.fst := by
  unfold apply
  cases h : op.forward (Context.fresh (!args.needsGrad)) args.rawVals with
  | none => rfl
  | some p =>
    obtain ⟨v, ctx⟩ := p
    cases hg : args.needsGrad <;> simp [Scalar.data]

theorem enumFrom_map_id (g : Val → Val) (arg : Nat) :
    ∀ (l : List Val) (n : Nat), arg < n →
      (List.enumFrom n l).map (fun iv => if iv.1 = arg then g iv.2 else iv.2) = l := by
  intro l
  induction l with
  | nil => intro n _; rfl
  | cons v l ih =>
    intro n hn
    simp only [List.enumFrom, List.map]
    rw [if_neg (by omega), ih (n + 1) (by omega)]

theorem enumFrom_perturb (g : Val → Val) (arg : Nat) :
    ∀ (l : List Val) (n : Nat), n ≤ arg →
      (List.enumFrom n l).map (fun iv => if iv.1 = arg then g iv.2 else iv.2) =
        l.set (arg - n) (g (l.getD (arg - n) 0)) := by
  intro l
  induction l with
  | nil => intro n _; rfl
  | cons v l ih =>
    intro n hn
    simp only [List.enumFrom, List.map]
    rcases Nat.eq_or_lt_of_le hn with heq | hlt
    · subst heq
      rw [if_pos rfl, Nat.sub_self]
      simp [enumFrom_map_id g n l (n + 1) (by omega)]
    · rw [if_neg (by omega), ih (n + 1) (by omega)]
      have h1 : arg - n = (arg - (n + 1)) + 1 := by omega
      rw [h1]
      rfl

theorem run_checks_cons (f : List Scalar → StateT Nat Option Scalar)
    (scalars : List Scalar) (grads : GradMap) (ix : Nat × Scalar)
    (rest : List (Nat × Scalar)) (s : Nat) :
    run_checks f scalars grads (ix :: rest) s =
      (central_difference_scalars f scalars ix.1 (1 / 1000000) s).bind fun p =>
        match derivativeOf grads ix.2.unique_id with
        | none => none
        | some d =>
            if isClose d p.1.data then run_checks f scalars grads rest p.2
            else some (false, p.2) := by
  simp only [run_checks, bind, StateT.bind, failure, pure, StateT.pure]
  cases central_difference_scalars f scalars ix.1 (1 / 1000000) s with
  | none => rfl
  | some p =>
      cases derivativeOf grads ix.2.unique_id with
      | none => rfl
      | some d => simp only [Option.bind]; split <;> rfl

theorem run_checks_spec (f : List Scalar → StateT Nat Option Scalar)
    (scalars : List Scalar) (grads : GradMap) :
    ∀ (pairs : List (Nat × Scalar)) (s s' : Nat) (b : Bool),
      run_checks f scalars grads pairs s = some (b, s') →
      (b = false → ∃ ix ∈ pairs, checkedAt f scalars grads ix false) ∧
      (b = true → ∀ ix ∈ pairs, checkedAt f scalars grads ix true) := by
  intro pairs
  induction pairs with
  | nil =>
    intro s s' b h
    rw [show run_checks f scalars grads [] s = some (true, s) from rfl] at h
    obtain ⟨hb, hs⟩ : b = true ∧ s' = s := by
      simpa [eq_comm] using h
    subst hb
    exact ⟨fun hf => by simp at hf, fun _ ix hix => by simp at hix⟩
  | cons ix rest ih =>
    intro s s' b h
    rw [run_checks_cons] at h
    cases hc : central_difference_scalars f scalars ix.1 (1 / 1000000) s with
    | none => rw [hc] at h; simp at h
    | some p =>
      rw [hc] at h
      simp only [Option.bind] at h
      cases hd : derivativeOf grads ix.2.unique_id with
      | none => rw [hd] at h; simp at h
      | some d =>
        rw [hd] at h
        dsimp only at h
        by_cases hcl : isClose d p.1.data = true
        · rw [if_pos hcl] at h
          obtain ⟨h1, h2⟩ := ih p.2 s' b h
          refine ⟨fun hb => ?_, fun hb iy hiy => ?_⟩
          · obtain ⟨iy, hiy, hcheck⟩ := h1 hb
            exact ⟨iy, List.mem_cons_of_mem _ hiy, hcheck⟩
          · rcases List.mem_cons.mp hiy with heq | hmem
            · subst heq
              exact ⟨s, p.2, p.1, d, hc, hd, hcl⟩
            · exact h2 hb iy hmem
        · rw [if_neg hcl] at h
          obtain ⟨hb, hs⟩ : false = b ∧ p.2 = s' := by simpa using h
          subst hb
          refine ⟨fun _ => ?_, fun hb => by simp at hb⟩
          exact ⟨ix, List.mem_cons_self _ _,
            s, p.2, p.1, d, hc, hd, by simpa using hcl⟩

end Minitorch

namespace Minitorch

/-! ### Claim theorems -/

/-- Claim C1: for leaf Scalars `a = Scalar(2.0)` and `b = Scalar(3.0)` with
`requires_grad` set before the pass, `c = a * b + a` has `c.data = 8.0`,
and after `c.backward()` with the default seed 1.0 the accumulated
derivatives are `a.derivative = 4.0` (the Mul use contributes 3 and the
Add use contributes 1) and `b.derivative = 2.0`. -/
theorem claim_C1 :
    c1_c.map Scalar.data = some 8 ∧
    c1_c.map (fun c => derivativeOf (c.backward 1) c1_a.unique_id)
        = some (some 4) ∧
    c1_c.map (fun c => derivativeOf (c.backward 1) c1_b.unique_id)
        = some (some 2) := by
  refine ⟨?_, ?_, ?_⟩ <;> with_unfolding_all rfl

/-- Claim C2: a Scalar built directly from a raw number with no explicit
history argument has `history = none`, and running backward on it as root
(after `requires_grad_(true)`) with seed `seed` produces exactly the one
accumulated derivative `seed` for this scalar and no other state. -/
theorem claim_C2 (uid : Nat) (v seed : Val) :
    (Scalar.ofFloat uid v).history = none ∧
    ((Scalar.ofFloat uid v).requires_grad_ true).backward seed
        = [(uid, seed)] :=
  ⟨rfl, rfl⟩

/-- Claim C3: for every context and every incoming gradient,
`LT.backward` and `EQ.backward` return exactly the pair `(0.0, 0.0)`,
regardless of the operand values seen at forward time (the context is
ignored entirely). -/
theorem claim_C3 (ctx : Context) (d_output : Val) :
    Op.backward .LT ctx d_output = [0, 0] ∧
    Op.backward .EQ ctx d_output = [0, 0] := by
  constructor <;> with_unfolding_all rfl

/-- Claim C4: for all values `a`, `b`, `d` and any incoming context,
`Mul.forward` returns `a * b` and saves the operand pair `(a, b)` in the
context, and `Mul.backward` on that context with incoming gradient `d`
returns `(b * d, a * d)` computed from the saved forward-time operands. -/
theorem claim_C4 (a b d : Val) (ctx : Context) :
    Op.forward .Mul ctx [a, b]
        = some (a * b, { ctx with saved_values := [a, b] }) ∧
    Op.backward .Mul { ctx with saved_values := [a, b] } d
        = [b * d, a * d] := by
  constructor <;> rfl

/-- Claim C5: division and subtraction have no dedicated primitive op:
`x / y` is `Mul.apply(x, Inv.apply(y))` so its data is
`x.data * (1 / y.data)`; `v / x` with a raw-number numerator is
`Mul.apply(v, Inv.apply(x))` so its data is `v * (1 / x.data)`; and
`x - y` is `Add.apply(x, Neg.apply(y))` so its data is
`x.data + (-(y.data))` — for every pair of Scalars and all fresh ids. -/
theorem claim_C5 (x y : Scalar) (v : Val) (u₁ u₂ u₃ u₄ u₅ u₆ : Nat) :
    (Scalar.div x y u₁ u₂).map Scalar.data = some (x.data * (1 / y.data)) ∧
    (Scalar.rdiv x v u₃ u₄).map Scalar.data = some (v * (1 / x.data)) ∧
    (Scalar.sub x y u₅ u₆).map Scalar.data = some (x.data + -(y.data)) := by
  refine ⟨?_, ?_, ?_⟩
  · cases hx : x.requires_grad <;> cases hy : y.requires_grad <;>
      simp [Scalar.div, apply, Op.forward, ArgList.needsGrad, ArgList.rawVals,
        Context.fresh, data_leaf, data_node, requires_grad_leaf,
        requires_grad_node, operators.inv, operators.mul, hx, hy]
  · cases hx : x.requires_grad <;>
      simp [Scalar.rdiv, apply, Op.forward, ArgList.needsGrad, ArgList.rawVals,
        Context.fresh, data_leaf, data_node, requires_grad_leaf,
        requires_grad_node, operators.inv, operators.mul, hx]
  · cases hx : x.requires_grad <;> cases hy : y.requires_grad <;>
      simp [Scalar.sub, apply, Op.forward, ArgList.needsGrad, ArgList.rawVals,
        Context.fresh, data_leaf, data_node, requires_grad_leaf,
        requires_grad_node, operators.neg, hx, hy]

/-- Claim C6: greater-than is the argument-swapped less-than: `a > b` is
`LT.apply(b, a)` (the same application as `b < a`), so its data equals the
data of `b < a` whatever fresh id either application consumes, and both
equal `1.0` when `b.data < a.data` and `0.0` otherwise. -/
theorem claim_C6 (a b : Scalar) (u₁ u₂ : Nat) :
    Scalar.gt a b u₁ = Scalar.lt b a u₁ ∧
    (Scalar.gt a b u₁).map Scalar.data = (Scalar.lt b a u₂).map Scalar.data ∧
    (Scalar.gt a b u₁).map Scalar.data
        = some (if b.data < a.data then 1 else 0) := by
  refine ⟨rfl, ?_, ?_⟩
  · rw [Scalar.gt, Scalar.lt, apply_data, apply_data]
  · rw [Scalar.gt, apply_data]; rfl

/-- Claim C9: Scalar equality comparison is the differentiable `EQ`
operation, not structural equality: `a == b` is `EQ.apply(a, b)` and
yields a new Scalar whose data is `1.0` when `a.data = b.data` and `0.0`
otherwise, by value and never by object identity. -/
theorem claim_C9 (a b : Scalar) (u : Nat) :
    (Scalar.eqOp a b u).map Scalar.data
        = some (if a.data = b.data then 1 else 0) := by
  rw [Scalar.eqOp, apply_data]; rfl

/-- Claim C10: converting a Scalar to a boolean (`__bool__`) yields true
exactly when the wrapped data is nonzero, independent of identity or
history. -/
theorem claim_C10 (s : Scalar) : s.toBool = true ↔ s.data ≠ 0 := by
  simp [Scalar.toBool]

/-- Claim C7: `central_difference(f, *vals, arg, epsilon)` returns
`(f(vals with vals[arg] + ε) - f(vals with vals[arg] - ε)) / (2ε)`, where
both evaluations perturb only the `arg`-th position (`List.set` leaves
every other position unchanged). -/
theorem claim_C7 (f : List Val → Val) (vals : List Val) (arg : Nat)
    (epsilon : Val) (h : arg < vals.length) :
    central_difference f vals arg epsilon =
      (f (vals.set arg (vals.getD arg 0 + epsilon)) -
       f (vals.set arg (vals.getD arg 0 - epsilon))) / (2 * epsilon) := by
  simp only [central_difference, List.enum]
  rw [show (fun iv : Nat × Val => if iv.1 = arg then iv.2 - epsilon else iv.2) =
        (fun iv : Nat × Val =>
          if iv.1 = arg then (fun t => t - epsilon) iv.2 else iv.2) from rfl,
      show (fun iv : Nat × Val => if iv.1 = arg then iv.2 + epsilon else iv.2) =
        (fun iv : Nat × Val =>
          if iv.1 = arg then (fun t => t + epsilon) iv.2 else iv.2) from rfl,
      enumFrom_perturb (fun t => t - epsilon) arg vals 0 (Nat.zero_le _),
      enumFrom_perturb (fun t => t + epsilon) arg vals 0 (Nat.zero_le _)]
  simp

/-- Witness for C7 at `f = head`, `vals = [1, 2]`, `arg = 0`, `ε = 1`. -/
theorem claim_C7_witness :
    0 < ([1, 2] : List Val).length ∧
    central_difference (fun l => l.getD 0 0) [1, 2] 0 1 =
      ((fun l : List Val => l.getD 0 0)
          (([1, 2] : List Val).set 0 (([1, 2] : List Val).getD 0 0 + 1)) -
       (fun l : List Val => l.getD 0 0)
          (([1, 2] : List Val).set 0 (([1, 2] : List Val).getD 0 0 - 1))) /
        (2 * 1) :=
  ⟨by decide, claim_C7 (fun l => l.getD 0 0) [1, 2] 0 1 (by decide)⟩

end Minitorch

namespace Minitorch

/-- Claim C8: `derivative_check(f, *scalars)` sets `requires_grad` on every
input, evaluates `out = f(*scalars)`, runs `out.backward()` (seed 1.0), and
then checks every input against its central-difference estimate with
relative and absolute tolerance `1e-2`: when it raises (`false`) some
input's accumulated derivative fails the `isClose` comparison against its
estimate, and when it returns normally (`true`) every input's accumulated
derivative passes that comparison. -/
theorem claim_C8 (f : List Scalar → StateT Nat Option Scalar)
    (scalars : List Scalar) (s₀ s₁ : Nat) (b : Bool)
    (h : derivative_check f scalars s₀ = some (b, s₁)) :
    ∃ out sOut,
      f (tracked_inputs scalars) s₀ = some (out, sOut) ∧
      run_checks f (tracked_inputs scalars) (out.backward 1)
          (tracked_inputs scalars).enum sOut = some (b, s₁) ∧
      (b = false → ∃ ix ∈ (tracked_inputs scalars).enum,
        checkedAt f (tracked_inputs scalars) (out.backward 1) ix false) ∧
      (b = true → ∀ ix ∈ (tracked_inputs scalars).enum,
        checkedAt f (tracked_inputs scalars) (out.backward 1) ix true) := by
  have hb : (f (tracked_inputs scalars) s₀).bind
      (fun p => run_checks f (tracked_inputs scalars) (p.1.backward 1)
        (tracked_inputs scalars).enum p.2) = some (b, s₁) := by
    rw [← h]
    rfl
  cases hf : f (tracked_inputs scalars) s₀ with
  | none => rw [hf] at hb; simp at hb
  | some p =>
    obtain ⟨out, sOut⟩ := p
    rw [hf] at hb
    simp only [Option.bind] at hb
    obtain ⟨h1, h2⟩ := run_checks_spec f (tracked_inputs scalars)
      (out.backward 1) (tracked_inputs scalars).enum sOut s₁ b hb
    exact ⟨out, sOut, rfl, hb, h1, h2⟩

/-- Witness for C8: `f(x) = x * x` on the single input `Scalar(2.0)`;
`derivative_check` returns normally (`true`) after consuming ids 1–10. -/
theorem claim_C8_witness :
    ∃ out sOut,
      c8f (tracked_inputs c8scalars) 1 = some (out, sOut) ∧
      run_checks c8f (tracked_inputs c8scalars) (out.backward 1)
          (tracked_inputs c8scalars).enum sOut = some (true, 11) ∧
      (true = false → ∃ ix ∈ (tracked_inputs c8scalars).enum,
        checkedAt c8f (tracked_inputs c8scalars) (out.backward 1) ix false) ∧
      (true = true → ∀ ix ∈ (tracked_inputs c8scalars).enum,
        checkedAt c8f (tracked_inputs c8scalars) (out.backward 1) ix true) :=
  claim_C8 c8f c8scalars 1 11 true (by with_unfolding_all rfl)

end Minitorch
